import Mathlib

/-!
Verification development for the mc-trimmer repository.

The Python sources are embedded shallowly:
* bytes are `List Nat` (each element a byte value),
* Python exceptions are `Except Unit` (or `Except String` where the message matters),
* the zlib inflate routine is an uninterpreted parameter
  `inflate : List Nat → Option (List Nat)` (`none` models `zlib.error`),
* Python `set[ChunkMetadata]` (hash/eq by `(x, y)`) is a `Finset` together with
  coordinate-injectivity hypotheses where the identification matters.

`primitives.py` is not part of the sources; the definitions taken from it are
modelled from the spec and marked as such in their doc comments.
-/

namespace McTrimmer

/-- Modelled from the spec: `primitives.py` is absent from the sources.
Per §3 the compression byte is 1=GZIP, 2=ZLIB, 3=UNCOMPRESSED, others rejected. -/
inductive Compression where
  | GZIP
  | ZLIB
  | UNCOMPRESSED
deriving DecidableEq, Repr

/-- Modelled from the spec: decode predicate of the `Compression` enum
(`Compression(byte)` in Python raises `ValueError`, here `none`, on other values). -/
def Compression.ofByte : Nat → Option Compression
  | 1 => some .GZIP
  | 2 => some .ZLIB
  | 3 => some .UNCOMPRESSED
  | _ => none

/-- Modelled from the spec: `Sizes.CHUNK_HEADER_SIZE` (§4.A `CHUNK_HEADER = 5`). -/
def CHUNK_HEADER_SIZE : Nat := 5

/-- Modelled from the spec: `Sizes.CHUNK_SIZE_MULTIPLIER` (§3 sector = 4096 bytes). -/
def CHUNK_SIZE_MULTIPLIER : Nat := 4096

/-- Big-endian unsigned integer value of a byte list (`struct.unpack(">I", ...)`
applied to `data[:4]`, and the builtin for any width). -/
def beNat (l : List Nat) : Nat :=
  l.foldl (fun a b => a * 256 + b) 0

/-- Embeds `Chunk` (regions.py:25-90): the compression scheme, the retained
compressed slice, and the decompressed NBT payload. -/
structure Chunk where
  compression : Compression
  compressed_data : List Nat
  decompressed_data : List Nat
deriving DecidableEq, Repr

/-- Embeds `Chunk.__init__` (regions.py:26-43). `inflate` stands for
`zlib.decompressobj().decompress`; `none` models a raised `zlib.error`.
With `length > 0` only ZLIB is handled (3 bytes of the inflated payload are
stripped: the root tag opening); any other scheme hits `assert False`. -/
def Chunk.init (inflate : List Nat → Option (List Nat)) (length : Nat)
    (compression : Compression) (data : List Nat) (compressed_data : List Nat) :
    Except Unit Chunk :=
  if 0 < length then
    match compression with
    | .ZLIB =>
      match inflate data with
      | some d => .ok ⟨compression, compressed_data, d.drop 3⟩
      | none => .error ()
    | _ => .error ()
  else
    .ok ⟨compression, compressed_data, []⟩

/-- Embeds `Chunk.from_bytes` (regions.py:63-76). `.error ()` models any raised
exception (the length assertion, `Compression(...)`'s `ValueError`, or a
decompression failure inside `__init__`); `.ok none` is the empty chunk. -/
def Chunk.from_bytes (inflate : List Nat → Option (List Nat)) (data : List Nat) :
    Except Unit (Option Chunk) :=
  if CHUNK_HEADER_SIZE ≤ data.length then
    let length := beNat (data.take 4)
    let compression := data.getD 4 0
    if length = 0 then
      .ok none
    else
      match Compression.ofByte compression with
      | none => .error ()
      | some comp =>
        (Chunk.init inflate length comp (data.drop CHUNK_HEADER_SIZE) data).map some
  else
    .error ()

/-- Embeds `Chunk.SIZE` (regions.py:88-90). -/
def Chunk.SIZE (c : Chunk) : Nat :=
  c.compressed_data.length

/-- A concrete stand-in for zlib on the concrete inputs used below: every
counterexample only needs that the inflate call succeeds, never the particular
output bytes (which real zlib would produce for a well-formed stream). -/
def inflate0 : List Nat → Option (List Nat) :=
  fun _ => some [0, 0, 0, 7, 7, 7]

/-- Concrete sector slice: header `length = 2`, compression byte `1` (GZIP),
one body byte, zero padding up to 16 bytes. -/
def gzipSlice : List Nat :=
  [0, 0, 0, 2, 1, 9] ++ List.replicate 10 0

/-- Concrete sector slice: header `length = 2`, compression byte `2` (ZLIB),
one body byte, zero padding up to 16 bytes. -/
def zlibSlice : List Nat :=
  [0, 0, 0, 2, 2, 9] ++ List.replicate 10 0

/-- Modelled from the spec: a location-table entry (§3), `offset` in sectors
(entry empty unless `offset >= 2`), `size` in sectors (`0` means empty).
`SerializableLocation` lives in the absent `primitives.py`. -/
structure Loc where
  offset : Nat
  size : Nat
deriving DecidableEq, Repr

/-- Modelled from the spec: the `ChunkDataBase` record of the absent
`primitives.py`, as instantiated at regions.py:114 — a decoded chunk together
with its location entry, timestamp and table index. -/
structure ChunkDataBase where
  data : Chunk
  location : Loc
  timestamp : Nat
  index : Nat
deriving DecidableEq, Repr

/-- The sector slice handed to `Chunk.from_bytes` for a location entry
(regions.py:104-105): `data[offset*4096 : offset*4096 + size*4096]`. -/
def sectorSlice (data : List Nat) (loc : Loc) : List Nat :=
  (data.drop (loc.offset * CHUNK_SIZE_MULTIPLIER)).take (loc.size * CHUNK_SIZE_MULTIPLIER)

/-- Embeds the chunk-loading loop of `RegionFile.__init__` (regions.py:102-114):
entries with `size > 0` and `offset >= 2` are sliced and parsed; a parse
returning the empty chunk is skipped (`continue`); a raised exception
propagates (aborting the whole loop); parsed chunks are collected in index
order. `i` is the running `enumerate` index. -/
def regionLoop (inflate : List Nat → Option (List Nat)) (data : List Nat) :
    Nat → List (Loc × Nat) → Except Unit (List ChunkDataBase)
  | _, [] => .ok []
  | i, (loc, ts) :: rest =>
    if 0 < loc.size ∧ 2 ≤ loc.offset then
      match Chunk.from_bytes inflate (sectorSlice data loc) with
      | .error e => .error e
      | .ok none => regionLoop inflate data (i + 1) rest
      | .ok (some c) =>
        (regionLoop inflate data (i + 1) rest).map (fun l => ⟨c, loc, ts, i⟩ :: l)
    else
      regionLoop inflate data (i + 1) rest

/-- Embeds `RegionFile.__init__` (regions.py:94-114). The location and
timestamp tables arrive already parsed (their byte codecs live in the absent
`primitives.py`); the `assert len(chunk_location_data) > 0` is modelled as
requiring a nonempty location list. `zip(..., strict=False)` is `List.zip`. -/
def regionFileInit (inflate : List Nat → Option (List Nat)) (locations : List Loc)
    (timestamps : List Nat) (data : List Nat) : Except Unit (List ChunkDataBase) :=
  if locations = [] then .error ()
  else regionLoop inflate data 0 (locations.zip timestamps)

theorem regionFileInit_ne_nil (inflate : List Nat → Option (List Nat))
    (locations : List Loc) (timestamps : List Nat) (data : List Nat)
    (h : locations ≠ []) :
    regionFileInit inflate locations timestamps data =
      regionLoop inflate data 0 (locations.zip timestamps) := by
  unfold regionFileInit
  rw [if_neg h]

/-- A 4096-byte sector holding a GZIP-marked chunk (length field 2, byte 1). -/
def cexBadSector : List Nat := [0, 0, 0, 2, 1, 9] ++ List.replicate 4090 0

/-- A 4096-byte sector holding a ZLIB chunk (length field 2, byte 2). -/
def cexGoodSector : List Nat := [0, 0, 0, 2, 2, 9] ++ List.replicate 4090 0

/-- A region image: two reserved table sectors of zeros, then the bad sector
at sector 2 and the good sector at sector 3. -/
def cexRegionData : List Nat := List.replicate 8192 0 ++ (cexBadSector ++ cexGoodSector)

/-- The chunk that `Chunk.from_bytes inflate0 zlibSlice` produces: ZLIB scheme,
the whole 16-byte slice retained, inflated payload with 3 bytes stripped. -/
def c7val : Chunk :=
  ⟨.ZLIB, zlibSlice, [7, 7, 7]⟩

/-- C3 counterexample: the slice `gzipSlice` has positive length field (2) and
compression byte 1 (GZIP), yet `Chunk.from_bytes` raises (the `assert False`
of `Chunk.__init__`) instead of succeeding as the claim states. -/
theorem from_bytes_gzip_fails_cex :
    Chunk.from_bytes inflate0 gzipSlice = Except.error () := by
  rfl

/-- C3 (amended): `Chunk.from_bytes` succeeds exactly on the ZLIB scheme
(byte 2), provided decompression succeeds, stripping the 3-byte NBT root-tag
preamble; compression bytes 1 (GZIP) and 3 (UNCOMPRESSED) hit the
`assert False` of `Chunk.__init__` and fail, as does any unknown byte. -/
theorem from_bytes_only_zlib :
    (∀ (inflate : List Nat → Option (List Nat)) (data out : List Nat),
      CHUNK_HEADER_SIZE ≤ data.length →
      beNat (data.take 4) ≠ 0 →
      data.getD 4 0 = 2 →
      inflate (data.drop CHUNK_HEADER_SIZE) = some out →
      Chunk.from_bytes inflate data = .ok (some ⟨.ZLIB, data, out.drop 3⟩)) ∧
    (∀ (inflate : List Nat → Option (List Nat)) (data : List Nat),
      CHUNK_HEADER_SIZE ≤ data.length →
      beNat (data.take 4) ≠ 0 →
      (data.getD 4 0 = 1 ∨ data.getD 4 0 = 3) →
      Chunk.from_bytes inflate data = .error ()) ∧
    (∀ (inflate : List Nat → Option (List Nat)) (data : List Nat),
      CHUNK_HEADER_SIZE ≤ data.length →
      beNat (data.take 4) ≠ 0 →
      Compression.ofByte (data.getD 4 0) = none →
      Chunk.from_bytes inflate data = .error ()) := by
  refine ⟨?_, ?_, ?_⟩
  · intro inflate data out hlen hne hbyte hinf
    simp only [Chunk.from_bytes, if_pos hlen, if_neg hne, hbyte]
    simp only [Compression.ofByte, Chunk.init, if_pos (Nat.pos_of_ne_zero hne), hinf,
      Except.map]
  · intro inflate data hlen hne hbyte
    rcases hbyte with h | h <;>
      simp only [Chunk.from_bytes, if_pos hlen, if_neg hne, h] <;>
      simp [Compression.ofByte, Chunk.init, if_pos (Nat.pos_of_ne_zero hne), Except.map]
  · intro inflate data hlen hne hnone
    simp only [Chunk.from_bytes, if_pos hlen, if_neg hne, hnone]

/-- C3 witness: the ZLIB slice `zlibSlice` parses to a chunk under `inflate0`. -/
theorem from_bytes_only_zlib_witness :
    Chunk.from_bytes inflate0 zlibSlice = .ok (some ⟨.ZLIB, zlibSlice, [7, 7, 7]⟩) :=
  from_bytes_only_zlib.1 inflate0 zlibSlice [0, 0, 0, 7, 7, 7]
    (by decide) (by decide) (by decide) (by rfl)

/-- C7 counterexample: `zlibSlice` is 16 bytes with length field 2, so the
claimed size (5-byte header plus `length - 1` body bytes) is 6, but the parsed
chunk's `SIZE` is the whole 16-byte slice, padding included. -/
theorem size_on_disk_includes_padding_cex :
    Chunk.from_bytes inflate0 zlibSlice = Except.ok (some c7val) ∧
    c7val.SIZE = 16 ∧ beNat (zlibSlice.take 4) = 2 ∧ c7val.SIZE ≠ CHUNK_HEADER_SIZE + (2 - 1) := by
  refine ⟨by rfl, by rfl, by rfl, by decide⟩

/-- C7 (amended): every chunk parsed from a sector slice retains the entire
slice, so `SIZE` equals the length of the whole slice handed to `from_bytes`
(sector padding included), not just header plus compressed body. -/
theorem size_on_disk_eq_slice_length :
    ∀ (inflate : List Nat → Option (List Nat)) (data : List Nat) (c : Chunk),
      Chunk.from_bytes inflate data = .ok (some c) → c.SIZE = data.length := by
  intro inflate data c h
  simp only [Chunk.from_bytes] at h
  split at h
  · split at h
    · simp at h
    · split at h
      · exact absurd h (by simp)
      · simp only [Chunk.init] at h
        split at h
        · split at h
          · split at h
            · simp only [Except.map] at h
              cases h
              rfl
            · simp [Except.map] at h
          · simp [Except.map] at h
        · simp only [Except.map] at h
          cases h
          rfl
  · exact absurd h (by simp)

/-- C7 witness: instantiating the amended theorem at the concrete slice. -/
theorem size_on_disk_eq_slice_length_witness :
    c7val.SIZE = zlibSlice.length :=
  size_on_disk_eq_slice_length inflate0 zlibSlice c7val (by rfl)

/-- How `Chunk.from_bytes` evaluates once the five header bytes are exposed. -/
theorem from_bytes_cons5 (inflate : List Nat → Option (List Nat))
    (b0 b1 b2 b3 b4 : Nat) (rest : List Nat) :
    Chunk.from_bytes inflate (b0 :: b1 :: b2 :: b3 :: b4 :: rest) =
      if beNat [b0, b1, b2, b3] = 0 then .ok none
      else
        match Compression.ofByte b4 with
        | none => .error ()
        | some comp =>
          (Chunk.init inflate (beNat [b0, b1, b2, b3]) comp rest
            (b0 :: b1 :: b2 :: b3 :: b4 :: rest)).map some := by
  have h : CHUNK_HEADER_SIZE ≤ (b0 :: b1 :: b2 :: b3 :: b4 :: rest).length := by
    simp only [List.length_cons, CHUNK_HEADER_SIZE]
    omega
  unfold Chunk.from_bytes
  rw [if_pos h]
  rfl

theorem from_bytes_cexBadSector (inflate : List Nat → Option (List Nat)) :
    Chunk.from_bytes inflate cexBadSector = .error () := by
  rw [show cexBadSector = 0 :: 0 :: 0 :: 2 :: 1 :: 9 :: List.replicate 4090 0 from rfl,
    from_bytes_cons5]
  rfl

theorem from_bytes_cexGoodSector :
    Chunk.from_bytes inflate0 cexGoodSector = .ok (some ⟨.ZLIB, cexGoodSector, [7, 7, 7]⟩) := by
  rw [show cexGoodSector = 0 :: 0 :: 0 :: 2 :: 2 :: 9 :: List.replicate 4090 0 from rfl,
    from_bytes_cons5]
  rfl

theorem sectorSlice_cex_2 : sectorSlice cexRegionData ⟨2, 1⟩ = cexBadSector := by
  have h1 : (List.replicate 8192 (0 : Nat)).length = 2 * CHUNK_SIZE_MULTIPLIER := by
    rw [List.length_replicate]
    rfl
  have h2 : cexBadSector.length = 1 * CHUNK_SIZE_MULTIPLIER := by
    rw [show cexBadSector = [0, 0, 0, 2, 1, 9] ++ List.replicate 4090 0 from rfl,
      List.length_append, List.length_replicate]
    rfl
  simp only [sectorSlice, cexRegionData]
  rw [List.drop_left' h1, List.take_left' h2]

theorem sectorSlice_cex_3 : sectorSlice cexRegionData ⟨3, 1⟩ = cexGoodSector := by
  have hre : cexRegionData = (List.replicate 8192 0 ++ cexBadSector) ++ cexGoodSector :=
    (List.append_assoc (List.replicate 8192 0) cexBadSector cexGoodSector).symm
  have h1 : (List.replicate 8192 (0 : Nat) ++ cexBadSector).length = 3 * CHUNK_SIZE_MULTIPLIER := by
    rw [List.length_append, List.length_replicate,
      show cexBadSector = [0, 0, 0, 2, 1, 9] ++ List.replicate 4090 0 from rfl,
      List.length_append, List.length_replicate]
    rfl
  have h2 : cexGoodSector.length ≤ 1 * CHUNK_SIZE_MULTIPLIER := by
    rw [show cexGoodSector = [0, 0, 0, 2, 2, 9] ++ List.replicate 4090 0 from rfl,
      List.length_append, List.length_replicate]
    exact Nat.le_refl _
  simp only [sectorSlice, hre]
  rw [List.drop_left' h1, List.take_of_length_le h2]

/-- C2 counterexample: a region whose sector 2 holds a chunk with a GZIP
compression byte and whose sector 3 holds a loadable ZLIB chunk. Loading the
region raises (first conjunct) — the good chunk of sector 3 is not delivered —
even though that chunk loads fine on its own (second conjunct). The per-chunk
failure is thus fatal for the region, contrary to the claim. -/
theorem region_load_failure_fatal_cex :
    regionFileInit inflate0 [⟨2, 1⟩, ⟨3, 1⟩] [0, 0] cexRegionData = Except.error () ∧
    regionFileInit inflate0 [⟨3, 1⟩] [0] cexRegionData =
      Except.ok [⟨⟨.ZLIB, cexGoodSector, [7, 7, 7]⟩, ⟨3, 1⟩, 0, 0⟩] := by
  constructor
  · rw [regionFileInit_ne_nil _ _ _ _ (by simp), List.zip_cons_cons, List.zip_cons_cons,
      List.zip_nil_right, regionLoop]
    rw [if_pos (by decide), sectorSlice_cex_2, from_bytes_cexBadSector]
  · rw [regionFileInit_ne_nil _ _ _ _ (by simp), List.zip_cons_cons, List.zip_nil_right,
      regionLoop]
    rw [if_pos (by decide), sectorSlice_cex_3, from_bytes_cexGoodSector]
    rfl

/-- C2 (amended): during region-file load, a chunk entry that decodes to the
empty chunk is skipped while the remaining entries still load, but an entry
whose payload raises (short slice, bad compression byte, or decompression
error) aborts the load of the whole region: the loop errors exactly when some
eligible entry's `from_bytes` raises. (The abort is handled per region by
`error_handling_wrapper`, so other regions still process.) -/
theorem region_load_skips_empty_aborts_on_error :
    (∀ (inflate : List Nat → Option (List Nat)) (data : List Nat)
        (i : Nat) (entries : List (Loc × Nat)),
      regionLoop inflate data i entries = .error () ↔
        ∃ e ∈ entries, (0 < e.1.size ∧ 2 ≤ e.1.offset) ∧
          Chunk.from_bytes inflate (sectorSlice data e.1) = .error ()) ∧
    (∀ (inflate : List Nat → Option (List Nat)) (data : List Nat)
        (i : Nat) (loc : Loc) (ts : Nat) (rest : List (Loc × Nat)),
      0 < loc.size ∧ 2 ≤ loc.offset →
      Chunk.from_bytes inflate (sectorSlice data loc) = .ok none →
      regionLoop inflate data i ((loc, ts) :: rest) = regionLoop inflate data (i + 1) rest) := by
  constructor
  · intro inflate data i entries
    induction entries generalizing i with
    | nil => simp [regionLoop]
    | cons e rest ih =>
      obtain ⟨loc, ts⟩ := e
      by_cases helig : 0 < loc.size ∧ 2 ≤ loc.offset
      · rcases hfb : Chunk.from_bytes inflate (sectorSlice data loc) with he | oc
        · obtain ⟨⟩ := he
          simp only [regionLoop, if_pos helig, hfb]
          constructor
          · intro _
            exact ⟨(loc, ts), List.mem_cons_self _ _, helig, hfb⟩
          · intro _
            trivial
        · cases oc with
          | none =>
            simp only [regionLoop, if_pos helig, hfb]
            rw [ih (i + 1)]
            constructor
            · rintro ⟨e, he, h⟩
              exact ⟨e, List.mem_cons_of_mem _ he, h⟩
            · rintro ⟨e, he, h⟩
              rcases List.mem_cons.mp he with rfl | hmem
              · rw [hfb] at h
                exact absurd h.2 (by simp)
              · exact ⟨e, hmem, h⟩
          | some c =>
            simp only [regionLoop, if_pos helig, hfb]
            constructor
            · intro hmap
              rcases hrec : regionLoop inflate data (i + 1) rest with hu | l
              · obtain ⟨⟩ := hu
                obtain ⟨e, he, h⟩ := (ih (i + 1)).mp hrec
                exact ⟨e, List.mem_cons_of_mem _ he, h⟩
              · rw [hrec] at hmap
                simp [Except.map] at hmap
            · rintro ⟨e, he, h⟩
              rcases List.mem_cons.mp he with rfl | hmem
              · rw [hfb] at h
                exact absurd h.2 (by simp)
              · rw [(ih (i + 1)).mpr ⟨e, hmem, h⟩]
                rfl
      · simp only [regionLoop, if_neg helig]
        rw [ih (i + 1)]
        constructor
        · rintro ⟨e, he, h⟩
          exact ⟨e, List.mem_cons_of_mem _ he, h⟩
        · rintro ⟨e, he, h⟩
          rcases List.mem_cons.mp he with rfl | hmem
          · exact absurd h.1 helig
          · exact ⟨e, hmem, h⟩
  · intro inflate data i loc ts rest helig hempty
    simp only [regionLoop, if_pos helig, hempty]

/-- A region image of 4 all-zero sectors: every chunk entry decodes to empty. -/
def zeroRegionData : List Nat :=
  List.replicate 8192 0 ++ (List.replicate 4096 0 ++ List.replicate 4096 0)

theorem sectorSlice_zero_2 : sectorSlice zeroRegionData ⟨2, 1⟩ = List.replicate 4096 0 := by
  have h1 : (List.replicate 8192 (0 : Nat)).length = 2 * CHUNK_SIZE_MULTIPLIER := by
    rw [List.length_replicate]
    rfl
  have h2 : (List.replicate 4096 (0 : Nat)).length = 1 * CHUNK_SIZE_MULTIPLIER := by
    rw [List.length_replicate]
    rfl
  simp only [sectorSlice, zeroRegionData]
  rw [List.drop_left' h1, List.take_left' h2]

theorem from_bytes_zero_sector (inflate : List Nat → Option (List Nat)) :
    Chunk.from_bytes inflate (List.replicate 4096 0) = .ok none := by
  rw [show List.replicate 4096 (0 : Nat) = 0 :: 0 :: 0 :: 0 :: 0 :: List.replicate 4091 0 from rfl,
    from_bytes_cons5]
  rfl

/-- C2 witness: the characterization instantiated on the concrete region image
of the counterexample — the load errors because the GZIP-marked entry fails —
and on an empty-chunk entry of an all-zero image, which is skipped. -/
theorem region_load_amended_witness :
    (regionLoop inflate0 cexRegionData 0 [(⟨2, 1⟩, 0), (⟨3, 1⟩, 0)] = .error () ↔
      ∃ e ∈ [((⟨2, 1⟩ : Loc), 0), (⟨3, 1⟩, 0)], (0 < e.1.size ∧ 2 ≤ e.1.offset) ∧
        Chunk.from_bytes inflate0 (sectorSlice cexRegionData e.1) = .error ()) ∧
    regionLoop inflate0 zeroRegionData 0 [(⟨2, 1⟩, 0), (⟨3, 1⟩, 0)] =
      regionLoop inflate0 zeroRegionData 1 [(⟨3, 1⟩, 0)] :=
  ⟨region_load_skips_empty_aborts_on_error.1 inflate0 cexRegionData 0 _,
   region_load_skips_empty_aborts_on_error.2 inflate0 zeroRegionData 0 ⟨2, 1⟩ 0 _
     (by decide) (by rw [sectorSlice_zero_2]; exact from_bytes_zero_sector inflate0)⟩

/-- One CSV row as `csv.DictWriter.writerow` emits it in `write_mca_selection`
(mca_selector.py:15-23): field order `region_x; region_y; chunk_x; chunk_y`,
`;` delimiter, `\n` line terminator, `region_* = chunk_* // 32` with Python's
floored integer division (`Int.fdiv`). The writer never quotes these integer
fields (`QUOTE_MINIMAL` and no special characters). -/
def mcaRow (coord : Int × Int) : String :=
  toString (Int.fdiv coord.1 32) ++ ";" ++ toString (Int.fdiv coord.2 32) ++ ";" ++
    toString coord.1 ++ ";" ++ toString coord.2 ++ "\n"

/-- Embeds `write_mca_selection` (mca_selector.py:7-23): no header row is ever
written (`writeheader` is never called), just the rows in iteration order. -/
def write_mca_selection (selection : List (Int × Int)) : String :=
  String.join (selection.map mcaRow)

theorem stringJoin_cons (s : String) (l : List String) :
    String.join (s :: l) = s ++ String.join l := by
  apply String.ext
  simp

/-- C8: `save_selection` output — every selected chunk `(x, y)` contributes
exactly one row `x div 32;y div 32;x;y` (floored division, `;`-delimited,
LF-terminated), there is no header row (the empty selection yields the empty
file), and the S6 selection `{(33, -1), (0, 0)}` yields rows `1;-1;33;-1` and
`0;0;0;0`. -/
theorem write_mca_selection_rows :
    (∀ (x y : Int) (rest : List (Int × Int)),
      write_mca_selection ((x, y) :: rest) =
        toString (Int.fdiv x 32) ++ ";" ++ toString (Int.fdiv y 32) ++ ";" ++
          toString x ++ ";" ++ toString y ++ "\n" ++ write_mca_selection rest) ∧
    write_mca_selection [] = "" ∧
    write_mca_selection [(33, -1), (0, 0)] = "1;-1;33;-1\n0;0;0;0\n" := by
  refine ⟨?_, rfl, ?_⟩
  · intro x y rest
    rw [write_mca_selection, List.map_cons, stringJoin_cons]
    simp only [mcaRow, write_mca_selection, String.append_assoc]
  · rw [write_mca_selection, List.map_cons, List.map_cons, List.map_nil,
      stringJoin_cons, stringJoin_cons]
    rfl

/-- Embeds `Entity` (entities.py:6-15): compression scheme, retained compressed
bytes, decompressed NBT payload (all defaulting to empty/ZLIB). -/
structure Entity where
  compression : Compression
  compressed_data : List Nat
  decompressed_data : List Nat
deriving DecidableEq, Repr

/-- The `Entity()` default construction (entities.py:7-15). -/
def Entity.empty : Entity := ⟨.ZLIB, [], []⟩

/-- Embeds `EntitiesFile` (entities.py:49-52): per-index entity data and the
dirty flag. -/
structure EntitiesFile where
  entity_data : List (Nat × Entity)
  dirty : Bool
deriving DecidableEq, Repr

/-- Embeds `EntitiesFile.__init__` (entities.py:50-52): exactly one parameter,
`entity_data`; `dirty` starts false. -/
def EntitiesFile.init (entity_data : List (Nat × Entity)) : EntitiesFile :=
  ⟨entity_data, false⟩

/-- Embeds `RegionFile` state after `__init__` (regions.py:93-114). -/
structure RegionFile where
  chunk_data : List ChunkDataBase
  dirty : Bool
deriving DecidableEq, Repr

/-- Embeds the `Region` dataclass (regions.py:138-142) as built by
`RegionManager.open_file`; `entities` is an `Option` because
`EntitiesFile.from_file` returns `None` for a too-short file. -/
structure Region where
  file_name : String
  region : RegionFile
  entities : Option EntitiesFile
deriving DecidableEq, Repr

/-- The Python exceptions `open_file` can raise in the modelled branch. -/
inductive PyError where
  | typeError
deriving DecidableEq, Repr

/-- Embeds `RegionManager.open_file` (commands.py:29-37). The filesystem is
abstracted: `regionFromFile` stands for the result of `RegionFile.from_file`,
`entitiesFromFile` for the result of `EntitiesFile.from_file`, and
`entities_file_present` for `(paths.inp_entities / file_name).exists()`. When
the entities file is absent, the source calls `EntitiesFile(b"", b"", b"")` —
but `EntitiesFile.__init__` (entities.py:50) accepts exactly one positional
argument (`entity_data`), so Python raises `TypeError` before any
`EntitiesFile` value exists: that call is the `.error .typeError` branch. -/
def RegionManager.open_file (file_name : String) (regionFromFile : RegionFile)
    (entities_file_present : Bool) (entitiesFromFile : Option EntitiesFile) :
    Except PyError Region :=
  if entities_file_present then
    .ok ⟨file_name, regionFromFile, entitiesFromFile⟩
  else
    .error .typeError

/-- C1: evaluating `open_file` at a region whose entities file is absent. The
call raises `TypeError` (the three-argument `EntitiesFile(b"", b"", b"")` call
does not match the one-parameter `__init__`), so no `Region` is returned and
the region is not processed — contrary to the claim that an empty entities
file is substituted and the `Region` returned successfully. -/
theorem open_file_absent_entities_type_error :
    ∀ (file_name : String) (rf : RegionFile) (ef : Option EntitiesFile),
      RegionManager.open_file file_name rf false ef = .error .typeError ∧
      ∀ r : Region, RegionManager.open_file file_name rf false ef ≠ .ok r := by
  intro file_name rf ef
  exact ⟨rfl, fun r h => by simp [RegionManager.open_file] at h⟩

/-- C1 witness: the evaluation at a concrete region name and empty region
file. -/
theorem open_file_absent_entities_type_error_witness :
    RegionManager.open_file "r.0.0.mca" ⟨[], false⟩ false none = .error .typeError ∧
    RegionManager.open_file "r.0.0.mca" ⟨[], false⟩ false none ≠
      .ok ⟨"r.0.0.mca", ⟨[], false⟩, some (EntitiesFile.init [])⟩ :=
  ⟨(open_file_absent_entities_type_error "r.0.0.mca" ⟨[], false⟩ none).1,
   (open_file_absent_entities_type_error "r.0.0.mca" ⟨[], false⟩ none).2 _⟩

/-- Embeds `ChunkMetadata` (commands.py:112-120). In Python its hash/equality
use `(x, y)` only; a Python `set[ChunkMetadata]` therefore never holds two
members with equal coordinates — captured below by `coordInjOn`. -/
structure ChunkMetadata where
  x : Int
  y : Int
  inhabited_time : Int
deriving DecidableEq, Repr

/-- A `Finset ChunkMetadata` faithfully models a Python `set[ChunkMetadata]`
when no two members share coordinates. -/
def coordInjOn (s : Finset ChunkMetadata) : Prop :=
  ∀ a ∈ s, ∀ b ∈ s, a.x = b.x → a.y = b.y → a = b

instance (s : Finset ChunkMetadata) : Decidable (coordInjOn s) := by
  unfold coordInjOn
  infer_instance

/-- Embeds `PipelineExecutor._make_circular_kernel` (commands.py:252-263): the
two nested `range(radius + 1)` loops add all four sign combinations of each
`(x, y)` with `x² + y² ≤ radius²`, then `(0, 0)` is removed (it is always
present, so the Python `set.remove` cannot raise). -/
def make_circular_kernel (radius : Nat) : Finset (Int × Int) :=
  ((((Finset.range (radius + 1)) ×ˢ (Finset.range (radius + 1))).filter
      (fun p => p.1 ^ 2 + p.2 ^ 2 ≤ radius ^ 2)).biUnion
    (fun p => {((p.1 : Int), (p.2 : Int)), (-(p.1 : Int), (p.2 : Int)),
      ((p.1 : Int), -(p.2 : Int)), (-(p.1 : Int), -(p.2 : Int))})).erase (0, 0)

/-- Embeds `PipelineExecutor._radially_expand_selection` (commands.py:265-312).
The worker pool computes, batch by batch, the kernel-shifted neighbours of the
selected coordinates and intersects each batch result with the unselected
coordinates; the union over all batches equals the single
`biUnion ∩ currently_unselected_coords` below (progress/pool plumbing
dropped). The final line mirrors
`selection | set(filter(lambda c: (c.x, c.y) in coords_to_include, available_chunks))`. -/
def radially_expand_selection (select_radius : Nat)
    (available_chunks selection : Finset ChunkMetadata) : Finset ChunkMetadata :=
  let kernel := make_circular_kernel select_radius
  let selected_coords : Finset (Int × Int) := selection.image (fun c => (c.x, c.y))
  let currently_unselected_coords : Finset (Int × Int) :=
    (available_chunks \ selection).image (fun c => (c.x, c.y))
  let coords_to_include : Finset (Int × Int) :=
    (selected_coords.biUnion (fun coord =>
      kernel.image (fun offset => (coord.1 + offset.1, coord.2 + offset.2)))) ∩
      currently_unselected_coords
  selection ∪ available_chunks.filter (fun c => (c.x, c.y) ∈ coords_to_include)

/-- Embeds the pipeline step variants (pipeline.py:29-94). The `Condition` of
`filter_selection` / `extend_selection` is carried as the compiled predicate
that `PipelineExecutor._make_filter` (commands.py:314-330) produces from it. -/
inductive Step where
  | filter (condition : ChunkMetadata → Bool)
  | extend (condition : ChunkMetadata → Bool)
  | radiallyExpandSelection (radius : Nat)
  | saveSelection
  | deleteSelectedChunks
  | selectAffectedRegions
  | invertSelection
  | moveSelected

/-- The `command` discriminator string of each step variant (pipeline.py). -/
def Step.command : Step → String
  | .filter _ => "filter_selection"
  | .extend _ => "extend_selection"
  | .radiallyExpandSelection _ => "radially_expand_selection"
  | .saveSelection => "save_selection"
  | .deleteSelectedChunks => "delete_selected_chunks"
  | .selectAffectedRegions => "select_affected_regions"
  | .invertSelection => "invert_selection"
  | .moveSelected => "move_selected"

/-- The executor's selection state (commands.py:178-179). -/
structure ExecState where
  available : Finset ChunkMetadata
  selected : Finset ChunkMetadata
deriving DecidableEq

/-- Embeds one iteration of the `match step.root` dispatch in
`PipelineExecutor.execute` (commands.py:207-250): `Filter` rebinds `selected`
to the filtered selection, `Extend` unions in the matching available chunks,
`RadiallyExpandSelection` unions in `_radially_expand_selection`'s result,
`SaveSelection` leaves the state unchanged (its CSV write is
`write_mca_selection`), and every other variant hits
`raise Exception(f"Unimplemented command: ...")`. -/
def execStep : Step → ExecState → Except String ExecState
  | .filter condition, st =>
    .ok ⟨st.available, st.selected.filter (fun c => condition c = true)⟩
  | .extend condition, st =>
    .ok ⟨st.available, st.selected ∪ st.available.filter (fun c => condition c = true)⟩
  | .radiallyExpandSelection radius, st =>
    .ok ⟨st.available, st.selected ∪ radially_expand_selection radius st.available st.selected⟩
  | .saveSelection, st => .ok st
  | step, _ => .error ("Unimplemented command: " ++ step.command)

theorem mem_make_circular_kernel (radius : Nat) (d : Int × Int) :
    d ∈ make_circular_kernel radius ↔
      d.1 ^ 2 + d.2 ^ 2 ≤ (radius : Int) ^ 2 ∧ d ≠ (0, 0) := by
  obtain ⟨dx, dy⟩ := d
  simp only [make_circular_kernel, Finset.mem_erase, Finset.mem_biUnion, Finset.mem_filter,
    Finset.mem_product, Finset.mem_range, Finset.mem_insert, Finset.mem_singleton,
    Prod.mk.injEq, ne_eq]
  constructor
  · rintro ⟨hne, ⟨x, y⟩, ⟨⟨hx, hy⟩, hsq⟩, hcase⟩
    refine ⟨?_, hne⟩
    have hcast : ((x : Int)) ^ 2 + ((y : Int)) ^ 2 ≤ ((radius : Int)) ^ 2 := by
      exact_mod_cast hsq
    rcases hcase with ⟨h1, h2⟩ | ⟨h1, h2⟩ | ⟨h1, h2⟩ | ⟨h1, h2⟩ <;>
      subst h1 <;> subst h2 <;> simpa [neg_pow] using hcast
  · rintro ⟨hle, hne⟩
    have hx2 : ((dx.natAbs : Int)) ^ 2 = dx ^ 2 := by
      rw [← Int.abs_eq_natAbs, sq_abs]
    have hy2 : ((dy.natAbs : Int)) ^ 2 = dy ^ 2 := by
      rw [← Int.abs_eq_natAbs, sq_abs]
    have hnat : dx.natAbs ^ 2 + dy.natAbs ^ 2 ≤ radius ^ 2 := by
      have : ((dx.natAbs : Int)) ^ 2 + ((dy.natAbs : Int)) ^ 2 ≤ ((radius : Int)) ^ 2 := by
        rw [hx2, hy2]; exact hle
      exact_mod_cast this
    have hxr : dx.natAbs ≤ radius := by
      by_contra hgt
      push_neg at hgt
      have : radius ^ 2 < dx.natAbs ^ 2 := Nat.pow_lt_pow_left hgt (by norm_num)
      omega
    have hyr : dy.natAbs ≤ radius := by
      by_contra hgt
      push_neg at hgt
      have : radius ^ 2 < dy.natAbs ^ 2 := Nat.pow_lt_pow_left hgt (by norm_num)
      omega
    refine ⟨hne, ⟨dx.natAbs, dy.natAbs⟩, ⟨⟨by omega, by omega⟩, hnat⟩, ?_⟩
    rcases Int.natAbs_eq dx with hdx | hdx <;> rcases Int.natAbs_eq dy with hdy | hdy
    · exact Or.inl ⟨hdx, hdy⟩
    · exact Or.inr (Or.inr (Or.inl ⟨hdx, hdy⟩))
    · exact Or.inr (Or.inl ⟨hdx, hdy⟩)
    · exact Or.inr (Or.inr (Or.inr ⟨hdx, hdy⟩))

theorem radially_expand_eq (radius : Nat) (available selection : Finset ChunkMetadata)
    (hinj : coordInjOn available) (hsub : selection ⊆ available) :
    radially_expand_selection radius available selection =
      selection ∪ available.filter (fun m => ∃ s ∈ selection,
        (m.x - s.x) ^ 2 + (m.y - s.y) ^ 2 ≤ (radius : Int) ^ 2) := by
  ext m
  simp only [radially_expand_selection, Finset.mem_union, Finset.mem_filter, Finset.mem_inter,
    Finset.mem_biUnion, Finset.mem_image, Finset.mem_sdiff]
  constructor
  · rintro (hm | ⟨hma, ⟨⟨cx, cy⟩, ⟨s, hs, hscoord⟩, ⟨dx, dy⟩, hker, hcoord⟩, hunsel⟩)
    · exact Or.inl hm
    · refine Or.inr ⟨hma, s, hs, ?_⟩
      obtain ⟨hsx, hsy⟩ := Prod.mk.injEq .. ▸ hscoord
      obtain ⟨hcx, hcy⟩ := Prod.mk.injEq .. ▸ hcoord
      have hk := (mem_make_circular_kernel radius (dx, dy)).mp hker
      have : m.x - s.x = dx ∧ m.y - s.y = dy := by
        constructor <;> omega
      rw [this.1, this.2]
      exact hk.1
  · rintro (hm | ⟨hma, s, hs, hdist⟩)
    · exact Or.inl hm
    by_cases hmem : m ∈ selection
    · exact Or.inl hmem
    refine Or.inr ⟨hma, ⟨(s.x, s.y), ⟨s, hs, rfl⟩, ⟨m.x - s.x, m.y - s.y⟩, ?_, by simp⟩,
      ⟨m, ⟨hma, hmem⟩, rfl⟩⟩
    refine (mem_make_circular_kernel radius _).mpr ⟨hdist, ?_⟩
    intro hzero
    obtain ⟨hzx, hzy⟩ := Prod.mk.injEq .. ▸ hzero
    have hx : m.x = s.x := by omega
    have hy : m.y = s.y := by omega
    exact hmem (hinj m hma s (hsub hs) hx hy ▸ hs)

/-- The 7×7 grid of chunks around the origin of scenario S4, all with
`inhabited_time = 0`. -/
def grid49 : Finset ChunkMetadata :=
  (Finset.Icc (-3 : Int) 3 ×ˢ Finset.Icc (-3 : Int) 3).image (fun p => ⟨p.1, p.2, 0⟩)

/-- C4 counterexample: with every available chunk selected (the S5 starting
state), executing an `invert_selection` step does not produce any new state —
the executor's `match` has no `InvertSelection` case, so the step raises
`Exception("Unimplemented command: invert_selection")` instead of setting
`selected` to `available \ selected` (which would be the empty selection). -/
theorem invert_selection_unimplemented_cex :
    execStep Step.invertSelection ⟨{⟨0, 0, 5⟩}, {⟨0, 0, 5⟩}⟩ =
      Except.error "Unimplemented command: invert_selection" := by
  rfl

/-- C4 (amended): executing an `invert_selection` pipeline step never updates
the selection; for every executor state it raises the `Unimplemented command`
exception of the `case _` branch (commands.py:243-244). The
`selected ← available \ selected` semantics of the spec is not implemented. -/
theorem invert_selection_raises (st : ExecState) :
    execStep Step.invertSelection st =
      Except.error "Unimplemented command: invert_selection" := by
  rfl

/-- C6: after every pipeline step the executor actually implements
(`filter_selection`, `extend_selection`, `radially_expand_selection`,
`save_selection`), the selected set is still a subset of the available set. -/
theorem selected_subset_available_invariant :
    ∀ (step : Step) (st st' : ExecState),
      execStep step st = .ok st' →
      st.selected ⊆ st.available → st'.selected ⊆ st'.available := by
  intro step st st' h hsub
  cases step with
  | filter condition =>
    cases h
    exact (Finset.filter_subset _ _).trans hsub
  | extend condition =>
    cases h
    exact Finset.union_subset hsub (Finset.filter_subset _ _)
  | radiallyExpandSelection radius =>
    cases h
    refine Finset.union_subset hsub ?_
    simp only [radially_expand_selection]
    exact Finset.union_subset hsub (Finset.filter_subset _ _)
  | saveSelection =>
    cases h
    exact hsub
  | deleteSelectedChunks => exact absurd h (by simp [execStep])
  | selectAffectedRegions => exact absurd h (by simp [execStep])
  | invertSelection => exact absurd h (by simp [execStep])
  | moveSelected => exact absurd h (by simp [execStep])

/-- C6 witness: the invariant instantiated on a concrete `filter_selection`
step over a two-chunk state. -/
theorem selected_subset_available_invariant_witness :
    (⟨{⟨0, 0, 5⟩, ⟨1, 0, 9⟩}, Finset.filter
        (fun c => (decide (1000 ≤ c.inhabited_time)) = true) {⟨0, 0, 5⟩, ⟨1, 0, 9⟩}⟩ :
      ExecState).selected ⊆
      (⟨{⟨0, 0, 5⟩, ⟨1, 0, 9⟩}, Finset.filter
        (fun c => (decide (1000 ≤ c.inhabited_time)) = true) {⟨0, 0, 5⟩, ⟨1, 0, 9⟩}⟩ :
      ExecState).available :=
  by
  refine selected_subset_available_invariant
    (.filter (fun c => decide (1000 ≤ c.inhabited_time)))
    ⟨{⟨0, 0, 5⟩, ⟨1, 0, 9⟩}, {⟨0, 0, 5⟩, ⟨1, 0, 9⟩}⟩ _ ?_ (by decide)
  rfl

/-- C5: a `radially_expand_selection` step succeeds and replaces the selection
by the previous selection together with exactly those available chunks within
Euclidean distance `radius` of some previously selected coordinate (first
conjunct, under the Python set-identity side conditions); the selection never
shrinks (second conjunct); and on the 7×7 grid of S4 with `{(0, 0)}` selected
and radius 2 the resulting selection has 13 chunks (third conjunct). -/
theorem radially_expand_selection_spec :
    (∀ (radius : Nat) (st : ExecState), 0 < radius → coordInjOn st.available →
      st.selected ⊆ st.available →
      execStep (.radiallyExpandSelection radius) st =
        .ok ⟨st.available, st.selected ∪ st.available.filter (fun m => ∃ s ∈ st.selected,
          (m.x - s.x) ^ 2 + (m.y - s.y) ^ 2 ≤ (radius : Int) ^ 2)⟩) ∧
    (∀ (radius : Nat) (available selection : Finset ChunkMetadata),
      selection ⊆ radially_expand_selection radius available selection) ∧
    (radially_expand_selection 2 grid49 {⟨0, 0, 0⟩}).card = 13 := by
  refine ⟨?_, ?_, by decide⟩
  · intro radius st _hr hinj hsub
    simp only [execStep]
    rw [radially_expand_eq radius st.available st.selected hinj hsub,
      ← Finset.union_assoc, Finset.union_self]
  · intro radius available selection
    simp only [radially_expand_selection]
    exact Finset.subset_union_left

/-- C5 witness: the step theorem instantiated at radius 1 on a singleton
state. -/
theorem radially_expand_selection_spec_witness :
    execStep (.radiallyExpandSelection 1) ⟨{⟨0, 0, 0⟩}, {⟨0, 0, 0⟩}⟩ =
      .ok ⟨{⟨0, 0, 0⟩}, {⟨0, 0, 0⟩} ∪ Finset.filter (fun m => ∃ s ∈ ({⟨0, 0, 0⟩} :
          Finset ChunkMetadata),
        (m.x - s.x) ^ 2 + (m.y - s.y) ^ 2 ≤ ((1 : Nat) : Int) ^ 2) {⟨0, 0, 0⟩}⟩ :=
  radially_expand_selection_spec.1 1 ⟨{⟨0, 0, 0⟩}, {⟨0, 0, 0⟩}⟩
    (by decide) (by decide) (by decide)

/-- Modelled from the spec (§4.B): the field-reading strategy of the absent
`primitives.py` — the expected tag byte and the value width in bytes. -/
structure Strategy where
  tag : Nat
  width : Nat

/-- Modelled from the spec (§4.B): NBT Int fields, tag byte `0x03`, 4 bytes. -/
def INT_STRATEGY : Strategy := ⟨3, 4⟩

/-- Modelled from the spec (§4.B): NBT Long fields, tag byte `0x04`, 8 bytes. -/
def LONG_STRATEGY : Strategy := ⟨4, 8⟩

/-- Signed (two's complement) big-endian integer value of a byte list. -/
def signedBE (l : List Nat) : Int :=
  let u := beNat l
  if u < 2 ^ (8 * l.length - 1) then (u : Int) else (u : Int) - 2 ^ (8 * l.length)

/-- Index of the first occurrence of `pat` in `blob` (Python `bytes.find`). -/
def findSub : List Nat → List Nat → Option Nat
  | [], pat => if pat = [] then some 0 else none
  | b :: rest, pat =>
    if pat.isPrefixOf (b :: rest) then some 0
    else (findSub rest pat).map (· + 1)

/-- Modelled from the spec (§4.B): `fast_get_property(blob, name, strategy)` of
the absent `primitives.py` — scan for `[tag][0x00][name_len][name_bytes]` (the
known field names are ASCII and shorter than 256 bytes, so the 16-bit
big-endian name length is the byte `0x00` followed by the length byte), then
read `width` bytes big-endian immediately after the match; the first
occurrence wins; a missed lookup or a short value slice raises (`none`). -/
def fast_get_property (blob name : List Nat) (strategy : Strategy) : Option Int :=
  let pat := strategy.tag :: 0 :: name.length :: name
  match findSub blob pat with
  | none => none
  | some i =>
    let bytes := (blob.drop (i + pat.length)).take strategy.width
    if bytes.length = strategy.width then some (signedBE bytes) else none

/-- ASCII bytes of `"InhabitedTime"`. -/
def nameInhabitedTime : List Nat := [73, 110, 104, 97, 98, 105, 116, 101, 100, 84, 105, 109, 101]

/-- ASCII bytes of `"xPos"`. -/
def namexPos : List Nat := [120, 80, 111, 115]

/-- ASCII bytes of `"zPos"`. -/
def namezPos : List Nat := [122, 80, 111, 115]

/-- Embeds the `Chunk.InhabitedTime` property (regions.py:45-49): read the
Long field, then `assert velue >= 0` — a failed read or a negative value
raises. -/
def Chunk.InhabitedTime (c : Chunk) : Except Unit Int :=
  match fast_get_property c.decompressed_data nameInhabitedTime LONG_STRATEGY with
  | none => .error ()
  | some velue => if 0 ≤ velue then .ok velue else .error ()

/-- Embeds the `Chunk.xPos` property (regions.py:51-53). -/
def Chunk.xPos (c : Chunk) : Except Unit Int :=
  match fast_get_property c.decompressed_data namexPos INT_STRATEGY with
  | none => .error ()
  | some v => .ok v

/-- Embeds the `Chunk.zPos` property (regions.py:59-61). -/
def Chunk.zPos (c : Chunk) : Except Unit Int :=
  match fast_get_property c.decompressed_data namezPos INT_STRATEGY with
  | none => .error ()
  | some v => .ok v

/-- One iteration of `GatherMetadata._gather_metadata` (commands.py:128-133):
the keyword arguments are evaluated left to right (`xPos`, `zPos`,
`InhabitedTime`); any raise is swallowed by the `except` and the row yields
nothing. -/
def gather_row (r : Nat × Chunk × Entity) : Option ChunkMetadata :=
  (do
    let x ← r.2.1.xPos
    let y ← r.2.1.zPos
    let it ← r.2.1.InhabitedTime
    pure (ChunkMetadata.mk x y it) : Except Unit ChunkMetadata).toOption

/-- Embeds `GatherMetadata._gather_metadata` (commands.py:127-133) over the
rows of `region.iterate()`. -/
def gather_metadata (rows : List (Nat × Chunk × Entity)) : List ChunkMetadata :=
  rows.filterMap gather_row

theorem InhabitedTime_ok_nonneg (c : Chunk) (v : Int) (h : c.InhabitedTime = .ok v) :
    0 ≤ v := by
  unfold Chunk.InhabitedTime at h
  split at h
  · exact absurd h (by simp)
  · split at h
    · cases h
      assumption
    · exact absurd h (by simp)

theorem gather_row_none (r : Nat × Chunk × Entity)
    (h : r.2.1.InhabitedTime = .error ()) : gather_row r = none := by
  cases hx : r.2.1.xPos <;> cases hy : r.2.1.zPos <;>
    simp [gather_row, Except.toOption, hx, hy, h, Bind.bind, Except.bind]

/-- C9: every `ChunkMetadata` produced by metadata gathering has
`inhabited_time ≥ 0` (first conjunct: the `assert velue >= 0` of the
`InhabitedTime` property guards every produced row), and a chunk whose
`InhabitedTime` read raises contributes no metadata while the rows before and
after it still gather normally (second conjunct: the per-chunk `except` is
not fatal). -/
theorem gather_metadata_nonneg :
    (∀ (rows : List (Nat × Chunk × Entity)) (m : ChunkMetadata),
      m ∈ gather_metadata rows → 0 ≤ m.inhabited_time) ∧
    (∀ (pre post : List (Nat × Chunk × Entity)) (row : Nat × Chunk × Entity),
      row.2.1.InhabitedTime = .error () →
      gather_metadata (pre ++ row :: post) = gather_metadata pre ++ gather_metadata post) := by
  constructor
  · intro rows m hm
    rw [gather_metadata, List.mem_filterMap] at hm
    obtain ⟨r, _, hr⟩ := hm
    cases hx : r.2.1.xPos with
    | error e =>
      rw [gather_row, hx] at hr
      simp [Except.toOption, Bind.bind, Except.bind] at hr
    | ok x =>
      cases hy : r.2.1.zPos with
      | error e =>
        rw [gather_row, hx] at hr
        simp [Except.toOption, Bind.bind, Except.bind, hy] at hr
      | ok y =>
        cases hit : r.2.1.InhabitedTime with
        | error e =>
          rw [gather_row, hx] at hr
          simp [Except.toOption, Bind.bind, Except.bind, hy, hit] at hr
        | ok it =>
          rw [gather_row, hx] at hr
          simp only [Except.toOption, Bind.bind, Except.bind, hy, hit, Pure.pure,
            Option.some.injEq] at hr
          have := InhabitedTime_ok_nonneg r.2.1 it hit
          cases hr
          exact this
  · intro pre post row h
    rw [gather_metadata, List.filterMap_append, List.filterMap_cons,
      gather_row_none row h]
    rfl

/-- A decompressed NBT blob holding `xPos = 2`, `zPos = 5`,
`InhabitedTime = 7`. -/
def goodBlob : List Nat :=
  [3, 0, 4, 120, 80, 111, 115, 0, 0, 0, 2] ++
  [3, 0, 4, 122, 80, 111, 115, 0, 0, 0, 5] ++
  ([4, 0, 13] ++ nameInhabitedTime ++ [0, 0, 0, 0, 0, 0, 0, 7])

/-- A chunk whose fields all read successfully. -/
def goodChunk : Chunk := ⟨.ZLIB, [], goodBlob⟩

/-- A chunk with an empty decompressed blob: every field read raises. -/
def badChunk : Chunk := ⟨.ZLIB, [], []⟩

/-- C9 witness: gathering over a good row, a failing row and nothing else
skips exactly the failing row. -/
theorem gather_metadata_nonneg_witness :
    gather_metadata [(0, goodChunk, Entity.empty), (1, badChunk, Entity.empty)] =
      gather_metadata [(0, goodChunk, Entity.empty)] ++ gather_metadata [] :=
  gather_metadata_nonneg.2 [(0, goodChunk, Entity.empty)] []
    (1, badChunk, Entity.empty) (by rfl)

/-- Embeds `Trim.CRITERIA_MAPPING` (commands.py:85-94). Each lambda reads
`chunk.InhabitedTime` (which can raise) and compares it with `<=` against the
tick threshold; the Python float products `1200 * 0.25 = 300.0`,
`1200 * 0.5 = 600.0`, … are exact integers, so integer comparison is
faithful. The entity argument is ignored. -/
def CRITERIA_MAPPING (key : String) : Option (Chunk → Entity → Except Unit Bool) :=
  match key with
  | "inhabited_time<15s" => some (fun chunk _ => chunk.InhabitedTime.map (fun v => decide (v ≤ 300)))
  | "inhabited_time<30s" => some (fun chunk _ => chunk.InhabitedTime.map (fun v => decide (v ≤ 600)))
  | "inhabited_time<1m" => some (fun chunk _ => chunk.InhabitedTime.map (fun v => decide (v ≤ 1200)))
  | "inhabited_time<2m" => some (fun chunk _ => chunk.InhabitedTime.map (fun v => decide (v ≤ 2400)))
  | "inhabited_time<3m" => some (fun chunk _ => chunk.InhabitedTime.map (fun v => decide (v ≤ 3600)))
  | "inhabited_time<5m" => some (fun chunk _ => chunk.InhabitedTime.map (fun v => decide (v ≤ 6000)))
  | "inhabited_time<10m" => some (fun chunk _ => chunk.InhabitedTime.map (fun v => decide (v ≤ 12000)))
  | _ => none

/-- Embeds `Trim.trim` (commands.py:99-103) over the rows of
`region.iterate()`: the indexes whose chunks meet the elimination condition
are reset — collected here in iteration order. A condition that raises aborts
the whole trim (the raise escapes to the per-region error wrapper; the
partial resets made before it are not observable through the return value). -/
def trimEvicted (rows : List (Nat × Chunk × Entity))
    (condition : Chunk → Entity → Except Unit Bool) : Except Unit (List Nat) :=
  match rows with
  | [] => .ok []
  | (i, c, e) :: rest => do
    let b ← condition c e
    let l ← trimEvicted rest condition
    pure (if b then i :: l else l)

/-- `Trim.run` restricted to what a claim observes: look the key up in
`CRITERIA_MAPPING` (commands.py:96-97) and trim with the resulting
predicate. -/
def runCriteria (key : String) (rows : List (Nat × Chunk × Entity)) :
    Option (Except Unit (List Nat)) :=
  (CRITERIA_MAPPING key).map (fun f => trimEvicted rows f)

theorem trim_single_evicts (i : Nat) (c : Chunk) (e : Entity) (T : Int)
    (hIT : c.InhabitedTime = .ok T) :
    trimEvicted [(i, c, e)] (fun chunk _ => chunk.InhabitedTime.map (fun v => decide (v ≤ T))) =
      .ok [i] := by
  simp [trimEvicted, hIT, Except.map, Bind.bind, Except.bind, Pure.pure, Except.pure]

/-- C10: every built-in trim criterion `inhabited_time<T` evicts at the
boundary: a chunk whose `InhabitedTime` equals the tick threshold exactly
(300, 600, 1200, 2400, 3600, 6000, 12000 ticks respectively) satisfies the
`<=` comparison of the criterion lambda and is evicted by the trim, despite
the strict `<` in the key name. -/
theorem trim_criteria_boundary_inclusive :
    ∀ (i : Nat) (c : Chunk) (e : Entity),
      (c.InhabitedTime = .ok 300 →
        runCriteria "inhabited_time<15s" [(i, c, e)] = some (.ok [i])) ∧
      (c.InhabitedTime = .ok 600 →
        runCriteria "inhabited_time<30s" [(i, c, e)] = some (.ok [i])) ∧
      (c.InhabitedTime = .ok 1200 →
        runCriteria "inhabited_time<1m" [(i, c, e)] = some (.ok [i])) ∧
      (c.InhabitedTime = .ok 2400 →
        runCriteria "inhabited_time<2m" [(i, c, e)] = some (.ok [i])) ∧
      (c.InhabitedTime = .ok 3600 →
        runCriteria "inhabited_time<3m" [(i, c, e)] = some (.ok [i])) ∧
      (c.InhabitedTime = .ok 6000 →
        runCriteria "inhabited_time<5m" [(i, c, e)] = some (.ok [i])) ∧
      (c.InhabitedTime = .ok 12000 →
        runCriteria "inhabited_time<10m" [(i, c, e)] = some (.ok [i])) := by
  intro i c e
  refine ⟨fun h => ?_, fun h => ?_, fun h => ?_, fun h => ?_, fun h => ?_, fun h => ?_,
    fun h => ?_⟩ <;>
    exact congrArg some (trim_single_evicts i c e _ h)

/-- An NBT blob holding `InhabitedTime = 1200` (`0x04B0`). -/
def itBlob1200 : List Nat := [4, 0, 13] ++ nameInhabitedTime ++ [0, 0, 0, 0, 0, 0, 4, 176]

/-- A chunk sitting exactly at the 1-minute threshold. -/
def chunk1200 : Chunk := ⟨.ZLIB, [], itBlob1200⟩

/-- C10 witness: the `inhabited_time<1m` criterion evicts the chunk whose
`InhabitedTime` is exactly 1200 ticks. -/
theorem trim_criteria_boundary_inclusive_witness :
    runCriteria "inhabited_time<1m" [(5, chunk1200, Entity.empty)] = some (.ok [5]) :=
  (trim_criteria_boundary_inclusive 5 chunk1200 Entity.empty).2.2.1 (by rfl)

end McTrimmer
